import Mathlib

/-!
Verification development for the outbound event queue manager
(`out_queue.ts` of the browser tracker core).  The TypeScript source is
shallowly embedded: pure helpers become Lean functions, the manager's
mutable variables become an explicit state record, and each network or
timer callback becomes a state transformer returning the callback events
it fires.  JavaScript built-ins that the source calls (JSON.stringify,
encodeURIComponent, Date.now, XMLHttpRequest, localStorage) are abstracted
as parameters; everything written in the source file itself is translated
directly.
-/

namespace OutQueue

/-- Embeds `getUTF8Length`: the UTF-8 byte count of a string.  The source
iterates over UTF-16 code units and counts a surrogate pair as 4 bytes;
Lean strings are sequences of code points, where an astral code point is
exactly one surrogate pair, so the pair branch becomes the final 4-byte
branch.  The source's `code < 0xffff` test (strict) is kept as is, so
U+FFFF itself falls into the 4-byte branch exactly as in the source. -/
def getUTF8Length (s : String) : Nat :=
  s.data.foldl
    (fun len c =>
      if c.toNat ≤ 0x7f then len + 1
      else if c.toNat ≤ 0x7ff then len + 2
      else if c.toNat < 0xffff then len + 3
      else len + 4)
    0

/-- The POST-mode queue record produced by `getBody`: the stringified
event fields (kept abstract as the serialized JSON text) together with
its UTF-8 byte size. -/
structure PostEvent where
  evt : String
  bytes : Nat
deriving DecidableEq, Repr

/-- Embeds `getBody` at the point after `JSON.stringify` (a built-in): the
serialized form of the cleaned request is the input, and the byte size is
computed from it exactly as in the source. -/
def getBody (serialized : String) : PostEvent :=
  { evt := serialized, bytes := getUTF8Length serialized }

/-- The loop body of `chooseHowManyToSend`: `numberToSend` and `byteCount`
are the loop variables, and the list is the unprocessed tail of the
queue.  The source breaks as soon as `byteCount >= maxPostBytes` after
adding the next record's bytes, otherwise counts the record in. -/
def chooseGo (maxPostBytes : Nat) : Nat → Nat → List PostEvent → Nat
  | numberToSend, _, [] => numberToSend
  | numberToSend, byteCount, e :: rest =>
    if maxPostBytes ≤ byteCount + e.bytes then numberToSend
    else chooseGo maxPostBytes (numberToSend + 1) (byteCount + e.bytes) rest

/-- Embeds `chooseHowManyToSend`: how many records from the front of the
queue go into the next POST batch. -/
def chooseHowManyToSend (maxPostBytes : Nat) (queue : List PostEvent) : Nat :=
  chooseGo maxPostBytes 0 0 queue

/-- Total byte size of a list of queue records. -/
def sumBytes (queue : List PostEvent) : Nat :=
  (queue.map PostEvent.bytes).sum

/-- Embeds `isSuccessfulRequest`: anything in the 2xx range. -/
def isSuccessfulRequest (statusCode : Nat) : Bool :=
  decide (200 ≤ statusCode ∧ statusCode < 300)

/-- Embeds `shouldRetryForStatusCode` with the manager's configuration
passed explicitly: the global `retryFailedRequests` flag and the two
user-supplied status-code lists. -/
def shouldRetryForStatusCode (retryFailedRequests : Bool)
    (retryStatusCodes dontRetryStatusCodes : List Nat) (statusCode : Nat) : Bool :=
  if isSuccessfulRequest statusCode then false
  else if !retryFailedRequests then false
  else if retryStatusCodes.contains statusCode then true
  else !(dontRetryStatusCodes.contains statusCode)

/-- A JavaScript runtime value as it can appear in the (possibly
corrupted, localStorage-restored) out queue.  Well-typed queues hold only
`jpost` records (POST mode) or `jstr` query strings (GET mode); the other
constructors model corrupted persisted entries.  `jpost` is an object
carrying the `evt` field; `jobjNoEvt` is an object without one. -/
inductive JSVal where
  | jstr (s : String)
  | jnum (n : Int)
  | jbool (b : Bool)
  | jnull
  | jundefined
  | jpost (evt : String) (bytes : Nat)
  | jobjNoEvt
  | jarr (elems : List JSVal)

/-- The possible results of the JavaScript `typeof` operator on a
queue entry. -/
inductive JSType where
  | string
  | number
  | boolean
  | object
  | undefined
deriving DecidableEq, Repr

/-- JavaScript `typeof`.  Note `typeof null` is `"object"`, and arrays
are objects. -/
def jsTypeof : JSVal → JSType
  | .jstr _ => .string
  | .jnum _ => .number
  | .jbool _ => .boolean
  | .jnull => .object
  | .jundefined => .undefined
  | .jpost _ _ => .object
  | .jobjNoEvt => .object
  | .jarr _ => .object

/-- Embeds the failsafe while-loop at the top of `executeQueue`: keep
shifting the head while its `typeof` is neither `"string"` nor
`"object"`. -/
def selfHeal : List JSVal → List JSVal
  | [] => []
  | v :: rest =>
    if jsTypeof v ≠ JSType.string ∧ jsTypeof v ≠ JSType.object then selfHeal rest
    else v :: rest

/-- Embeds `postable`: the head of the queue is an object with an `evt`
field.  (On an empty queue, `queue[0]` is `undefined`, whose `typeof` is
not `"object"`, so the source returns false; a `null` head would make the
source's `'evt' in queue[0]` throw, and is modeled as false.) -/
def postable (queue : List JSVal) : Bool :=
  match queue with
  | JSVal.jpost _ _ :: _ => true
  | _ => false

/-- JavaScript string coercion of a queue entry, as used when a
non-string head reaches string concatenation in `createGetUrl`.  (The
array case elides JavaScript's element join; no well-typed queue holds
arrays.) -/
def headAsString : JSVal → String
  | .jstr s => s
  | .jnum n => toString n
  | .jbool b => toString b
  | .jnull => "null"
  | .jundefined => "undefined"
  | .jpost _ _ => "[object Object]"
  | .jobjNoEvt => "[object Object]"
  | .jarr _ => ""

/-- A `jpost` entry of a well-typed POST queue, as a `PostEvent`.  (Other
constructors do not occur in postable queues; they get a dummy value.) -/
def toPostEvent : JSVal → PostEvent
  | .jpost e b => { evt := e, bytes := b }
  | _ => { evt := "", bytes := 0 }

/-- The construction-time configuration of `OutQueueManager` (the
closure variables that never change), with the environment capabilities
(`useXhr`) resolved. -/
structure Config where
  usePost : Bool
  useXhr : Bool
  useLocalStorage : Bool
  useStm : Bool
  postPath : String
  bufferSize : Nat
  maxPostBytes : Nat
  maxGetBytes : Nat
  maxLocalStorageQueueSize : Nat
  anonymousTracking : Bool
  retryFailedRequests : Bool
  retryStatusCodes : List Nat
  dontRetryStatusCodes : List Nat
  idService : Option String
deriving DecidableEq, Repr

/-- Embeds `path`: `usePost ? postPath : '/i'`. -/
def Config.path (cfg : Config) : String :=
  if cfg.usePost then cfg.postPath else "/i"

/-- The manager's mutable closure variables.  `persisted` mirrors the
localStorage slot for this queue (as the parsed record list it holds);
`configCollectorUrl` is `none` while still `undefined`. -/
structure MgrState where
  outQueue : List JSVal
  executingQueue : Bool
  configCollectorUrl : Option String
  idServiceCalled : Bool
  persisted : List JSVal

/-- First-occurrence replacement of the `?` character, embedding the
`nextRequest.replace` call of `createGetUrl`. -/
def replaceFirstQMark (repl : List Char) : List Char → List Char
  | [] => []
  | c :: rest => if c = '?' then repl ++ rest else c :: replaceFirstQMark repl rest

/-- Embeds `createGetUrl`; `now` is the current-time string the source
obtains from the Date built-in. -/
def createGetUrl (cfg : Config) (now : String) (configCollectorUrl nextRequest : String) :
    String :=
  if cfg.useStm then
    configCollectorUrl ++
      String.mk (replaceFirstQMark ("?stm=" ++ now ++ "&").data nextRequest.data)
  else
    configCollectorUrl ++ nextRequest

/-- The shift loop of `removeEventsFromQueue`: `numberToSend` times
`outQueue.shift()`. -/
def shiftN {α : Type} : Nat → List α → List α
  | 0, q => q
  | n + 1, q => shiftN n q.tail

/-- Embeds `removeEventsFromQueue` as a state transformer.  `writeOk`
models whether `attemptWriteLocalStorage` succeeds (the source ignores
its result here; on failure the persisted copy is simply left stale). -/
def removeEventsFromQueue (cfg : Config) (numberToSend : Nat) (writeOk : Bool)
    (st : MgrState) : MgrState :=
  let q := shiftN numberToSend st.outQueue
  { st with
    outQueue := q
    persisted :=
      if cfg.useLocalStorage ∧ writeOk then q.take cfg.maxLocalStorageQueueSize
      else st.persisted }

/-- The incoming request, at the abstraction boundary of the JavaScript
built-ins: `serialized` is `JSON.stringify` of the cleaned request (the
input to the byte count in `getBody`), `querystring` is the
`getQuerystring` rendering (built with `encodeURIComponent`). -/
structure Payload where
  serialized : String
  querystring : String
deriving DecidableEq, Repr

/-- Result of one `enqueueRequest` call: the new state, whether the
event-too-big warning was logged, the body and URL of a
`sendPostRequestWithoutQueueing` call if one was made, and whether the
tail of the function invoked `executeQueue` (the recursive drain itself
is not unfolded here). -/
structure EnqueueResult where
  state : MgrState
  warned : Bool
  direct : Option (PostEvent × String)
  triggeredDrain : Bool

/-- The shared tail of `enqueueRequest` after the size checks: push the
record, mirror the queue to localStorage when enabled (`writeOk` models
the `attemptWriteLocalStorage` result), and start the drain when not
already executing and either the write failed or the buffer is full. -/
def enqueuePush (cfg : Config) (writeOk : Bool) (st : MgrState) (v : JSVal) :
    EnqueueResult :=
  let q := st.outQueue ++ [v]
  let savedToLocalStorage := cfg.useLocalStorage && writeOk
  let st1 := { st with
    outQueue := q
    persisted :=
      if savedToLocalStorage then q.take cfg.maxLocalStorageQueueSize else st.persisted }
  { state := st1
    warned := false
    direct := none
    triggeredDrain :=
      !st1.executingQueue && (!savedToLocalStorage || cfg.bufferSize ≤ q.length) }

/-- Embeds `enqueueRequest`.  POST mode: a body whose byte size reaches
`maxPostBytes` is warned about and handed to
`sendPostRequestWithoutQueueing` with the collector URL, bypassing the
queue; otherwise it is pushed.  GET mode with a positive `maxGetBytes`:
when the rendered GET URL reaches the cap, warn and — only if XHR is
available — POST it directly to `url ++ postPath`; with `maxGetBytes = 0`
no size check happens and the query string is always pushed. -/
def enqueueRequest (cfg : Config) (now : String) (writeOk : Bool) (st : MgrState)
    (request : Payload) (url : String) : EnqueueResult :=
  let configCollectorUrl := url ++ cfg.path
  let st := { st with configCollectorUrl := some configCollectorUrl }
  if cfg.usePost then
    let body := getBody request.serialized
    if cfg.maxPostBytes ≤ body.bytes then
      { state := st, warned := true, direct := some (body, configCollectorUrl)
        triggeredDrain := false }
    else
      enqueuePush cfg writeOk st (JSVal.jpost body.evt body.bytes)
  else
    if 0 < cfg.maxGetBytes ∧
        cfg.maxGetBytes ≤
          getUTF8Length (createGetUrl cfg now configCollectorUrl request.querystring) then
      { state := st, warned := true
        direct :=
          if cfg.useXhr then some (getBody request.serialized, url ++ cfg.postPath)
          else none
        triggeredDrain := false }
    else
      enqueuePush cfg writeOk st (JSVal.jstr request.querystring)

/-- What one entry into `executeQueue` dispatches after its guards: the
send it initiates (batches abstract over the beacon fast path and the
XHR fallback — both start from the same selected batch), the one-shot id
service preflight, a return to idle, or — for a postable queue whose
selected batch is empty — a stall where nothing is sent while
`executingQueue` stays true. -/
inductive QAction where
  | idle
  | callIdService (url : String)
  | sendPostBatch (url : String) (batch : List PostEvent) (numberToSend : Nat)
  | stalledEmptyBatch
  | sendGetXhr (url : String) (numberToSend : Nat)
  | sendPixel (url : String)
  | noop
deriving DecidableEq, Repr

/-- Embeds one entry into the private `executeQueue` up to the point
where it hands off to the network (the asynchronous continuations are
the callback transformers below).  Faithfully in order: the failsafe
head-discard loop, the empty-queue return to idle, the thrown
`"No collector configured"` when the collector URL was never set, the
one-shot id-service preflight, then the transport dispatch. -/
def executeQueueStep (cfg : Config) (now : String) (st : MgrState) :
    Except String (MgrState × QAction) :=
  let q := selfHeal st.outQueue
  if q.isEmpty then
    Except.ok ({ st with outQueue := q, executingQueue := false }, QAction.idle)
  else
    match st.configCollectorUrl with
    | none => Except.error "No collector configured"
    | some ccu =>
      let st1 := { st with outQueue := q, executingQueue := true }
      match cfg.idService, st1.idServiceCalled with
      | some idUrl, false =>
        Except.ok ({ st1 with idServiceCalled := true }, QAction.callIdService idUrl)
      | _, _ =>
        if cfg.useXhr then
          if postable q then
            let numberToSend := chooseHowManyToSend cfg.maxPostBytes (q.map toPostEvent)
            let batch := (q.map toPostEvent).take numberToSend
            if batch.isEmpty then Except.ok (st1, QAction.stalledEmptyBatch)
            else Except.ok (st1, QAction.sendPostBatch ccu batch numberToSend)
          else
            Except.ok (st1,
              QAction.sendGetXhr
                (createGetUrl cfg now ccu (headAsString (q.headD JSVal.jundefined))) 1)
        else if !cfg.anonymousTracking && !postable q then
          Except.ok (st1,
            QAction.sendPixel
              (createGetUrl cfg now ccu (headAsString (q.headD JSVal.jundefined))))
        else
          Except.ok ({ st1 with executingQueue := false }, QAction.idle)

/-- Embeds the public `executeQueue` of the returned `OutQueue` object:
`if (!executingQueue) executeQueue()`. -/
def publicExecuteQueue (cfg : Config) (now : String) (st : MgrState) :
    Except String (MgrState × QAction) :=
  if !st.executingQueue then executeQueueStep cfg now st
  else Except.ok (st, QAction.noop)

/-- Embeds the buffer flusher registered with the shared state when XHR
is available and the buffer size exceeds 1:
`function (sync) { if (!executingQueue) executeQueue(sync) }`.  (The
`sync` flag only switches the XHR to blocking mode and does not affect
the state transition.) -/
def bufferFlusher (cfg : Config) (now : String) (st : MgrState) :
    Except String (MgrState × QAction) :=
  if !st.executingQueue then executeQueueStep cfg now st
  else Except.ok (st, QAction.noop)

/-- The `RequestFailure` record handed to the failure callback. -/
structure RequestFailure where
  status : Nat
  message : String
  events : List String
  willRetry : Bool
deriving DecidableEq, Repr

/-- A callback invocation surfaced to the caller: `onRequestSuccess`
with the event batch, or `onRequestFailure` with a failure record. -/
inductive CallbackEvent where
  | success (events : List String)
  | failure (f : RequestFailure)
deriving DecidableEq, Repr

/-- Embeds the `onreadystatechange` handler installed by
`setXhrCallbacks` at `readyState === 4`: on a 2xx status remove the sent
prefix, fire the success callback and continue the drain (the trailing
`Bool`); otherwise classify the status, remove the prefix only when it
will not be retried, fire the failure callback and halt the drain. -/
def xhrOnComplete (cfg : Config) (writeOk : Bool) (numberToSend : Nat)
    (batch : List String) (status : Nat) (statusText : String) (st : MgrState) :
    MgrState × CallbackEvent × Bool :=
  if isSuccessfulRequest status then
    (removeEventsFromQueue cfg numberToSend writeOk st, CallbackEvent.success batch, true)
  else
    let willRetry := shouldRetryForStatusCode cfg.retryFailedRequests
      cfg.retryStatusCodes cfg.dontRetryStatusCodes status
    let st1 := if !willRetry then removeEventsFromQueue cfg numberToSend writeOk st else st
    ({ st1 with executingQueue := false },
      CallbackEvent.failure
        { status := status, message := statusText, events := batch, willRetry := willRetry },
      false)

/-- Embeds the connection-timeout timer installed by `setXhrCallbacks`:
abort the request, drop the batch when the global retry flag is off,
fire the failure callback with status 0, the fixed `"timeout"` message
and `willRetry := retryFailedRequests`, and halt the drain. -/
def xhrTimeoutFire (cfg : Config) (writeOk : Bool) (numberToSend : Nat)
    (batch : List String) (st : MgrState) : MgrState × RequestFailure :=
  let st1 :=
    if !cfg.retryFailedRequests then removeEventsFromQueue cfg numberToSend writeOk st
    else st
  ({ st1 with executingQueue := false },
    { status := 0, message := "timeout", events := batch
      willRetry := cfg.retryFailedRequests })

/-- Embeds the `onreadystatechange` handler of
`sendPostRequestWithoutQueueing` at `readyState === 4`: the handler only
invokes the caller's callbacks — it never touches the queue, the
persisted copy or the executing flag, so it is the identity on the
manager state; a non-2xx outcome is reported with `willRetry := false`,
unconditionally. -/
def sendPostRequestWithoutQueueingOnComplete (batch : List String) (status : Nat)
    (statusText : String) (st : MgrState) : MgrState × CallbackEvent :=
  (st,
    if isSuccessfulRequest status then CallbackEvent.success batch
    else
      CallbackEvent.failure
        { status := status, message := statusText, events := batch, willRetry := false })

/-- Embeds the construction-time load of the persisted queue.  `parse`
abstracts `JSON.parse` (`none` means it threw, in which case the
`try`/`catch` leaves the initial `[]`); a missing stored value also
yields `[]`; and the final `Array.isArray` check resets any non-array
parse result to `[]`.  The function is total: no failure escapes. -/
def loadQueue (useLocalStorage : Bool) (slot : Option String)
    (parse : String → Option JSVal) : List JSVal :=
  let loaded : JSVal :=
    if useLocalStorage then
      match slot with
      | some s =>
        match parse s with
        | some v => v
        | none => JSVal.jarr []
      | none => JSVal.jarr []
    else JSVal.jarr []
  match loaded with
  | JSVal.jarr elems => elems
  | _ => []

/-- Head of the queue is an object with the `evt` field (the valid
post-record shape of the spec). -/
def isValidPostRecord : JSVal → Bool
  | .jpost _ _ => true
  | _ => false

/-- The entry is a GET-mode query string. -/
def isStringRecord : JSVal → Bool
  | .jstr _ => true
  | _ => false

/-- `Array.isArray`. -/
def isArray : JSVal → Bool
  | .jarr _ => true
  | _ => false

/-- The success-path recursion of `executeQueue` for a POST queue, as
the sequence of batches it sends while every request succeeds (with
`fuel` bounding the number of round trips): each entry selects
`chooseHowManyToSend` records from the front, sends exactly that slice,
and the success callback removes exactly that front prefix
(`removeEventsFromQueue`, whose queue effect is `shiftN`) before the
loop re-enters.  When the selection is empty the
`batch.length > 0` guard sends nothing and the recursion stops. -/
def drainBatches (maxPostBytes : Nat) : Nat → List PostEvent → List (List PostEvent)
  | 0, _ => []
  | fuel + 1, q =>
    let n := chooseHowManyToSend maxPostBytes q
    if n = 0 then []
    else q.take n :: drainBatches maxPostBytes fuel (shiftN n q)

/-- Which batch of a batch sequence the record at overall position `p`
belongs to. -/
def batchOfPos {α : Type} : List (List α) → Nat → Nat
  | [], _ => 0
  | b :: bs, p => if p < b.length then 0 else batchOfPos bs (p - b.length) + 1

/-- A representative resolved configuration (POST over XHR, retries on,
no persistence) used to instantiate theorems at concrete inputs. -/
def sampleConfig : Config :=
  { usePost := true
    useXhr := true
    useLocalStorage := false
    useStm := false
    postPath := "/com.snowplowanalytics.snowplow/tp2"
    bufferSize := 1
    maxPostBytes := 40000
    maxGetBytes := 0
    maxLocalStorageQueueSize := 1000
    anonymousTracking := false
    retryFailedRequests := true
    retryStatusCodes := []
    dontRetryStatusCodes := []
    idService := none }

/-- The manager state right after construction with nothing persisted. -/
def sampleState : MgrState :=
  { outQueue := []
    executingQueue := false
    configCollectorUrl := none
    idServiceCalled := false
    persisted := [] }


lemma sumBytes_nil : sumBytes [] = 0 := rfl

lemma sumBytes_cons (e : PostEvent) (q : List PostEvent) :
    sumBytes (e :: q) = e.bytes + sumBytes q := by
  simp [sumBytes]

/-- Shifting the `numberToSend` accumulator out of the loop. -/
lemma chooseGo_accum (m : Nat) (q : List PostEvent) :
    ∀ n b, chooseGo m n b q = n + chooseGo m 0 b q := by
  induction q with
  | nil => intro n b; simp [chooseGo]
  | cons e rest ih =>
    intro n b
    by_cases h : m ≤ b + e.bytes
    · simp [chooseGo, h]
    · simp only [chooseGo, if_neg h]
      rw [ih (n + 1), ih 1]
      omega

/-- Full loop invariant of `chooseHowManyToSend`, generalized over the
running `byteCount`: the chosen count is at most the queue length, the
chosen prefix stays strictly under budget, the next record (if any) would
reach the budget, and the chosen prefix is the longest under-budget
one. -/
lemma chooseGo_spec (m : Nat) (q : List PostEvent) :
    ∀ b, chooseGo m 0 b q ≤ q.length ∧
      (b < m → b + sumBytes (q.take (chooseGo m 0 b q)) < m) ∧
      (chooseGo m 0 b q < q.length →
        m ≤ b + sumBytes (q.take (chooseGo m 0 b q + 1))) ∧
      (∀ j, j ≤ q.length → b + sumBytes (q.take j) < m → j ≤ chooseGo m 0 b q) := by
  induction q with
  | nil =>
    intro b
    refine ⟨Nat.le_refl _, ?_, ?_, ?_⟩
    · intro hb; simpa [chooseGo, sumBytes] using hb
    · intro h; simp [chooseGo] at h
    · intro j hj _; simpa [chooseGo] using hj
  | cons e rest ih =>
    intro b
    by_cases h : m ≤ b + e.bytes
    · refine ⟨by simp [chooseGo, h], ?_, ?_, ?_⟩
      · intro hb; simpa [chooseGo, h, sumBytes] using hb
      · intro _
        simp [chooseGo, h, sumBytes_cons]
        omega
      · intro j hj hlt
        by_contra hj0
        have hj1 : 1 ≤ j := by
          simp [chooseGo, h] at hj0
          omega
        have : e.bytes ≤ sumBytes ((e :: rest).take j) := by
          cases j with
          | zero => omega
          | succ j' => simp [sumBytes_cons]
        omega
    · have hrec := ih (b + e.bytes)
      have hstep : chooseGo m 0 b (e :: rest) = 1 + chooseGo m 0 (b + e.bytes) rest := by
        simp only [chooseGo, if_neg h]
        exact chooseGo_accum m rest 1 (b + e.bytes)
      refine ⟨?_, ?_, ?_, ?_⟩
      · rw [hstep]; simp; omega
      · intro _
        rw [hstep]
        have hone : 1 + chooseGo m 0 (b + e.bytes) rest =
            chooseGo m 0 (b + e.bytes) rest + 1 := by omega
        rw [hone, List.take_succ_cons, sumBytes_cons]
        have := hrec.2.1 (by omega)
        omega
      · intro hlen
        rw [hstep] at hlen ⊢
        have hlt : chooseGo m 0 (b + e.bytes) rest < rest.length := by
          simp at hlen; omega
        have := hrec.2.2.1 hlt
        have htake : (e :: rest).take (1 + chooseGo m 0 (b + e.bytes) rest + 1) =
            e :: rest.take (chooseGo m 0 (b + e.bytes) rest + 1) := by
          have : 1 + chooseGo m 0 (b + e.bytes) rest + 1 =
              chooseGo m 0 (b + e.bytes) rest + 1 + 1 := by omega
          rw [this]
          simp [List.take_succ_cons]
        rw [htake, sumBytes_cons]
        omega
      · intro j hj hlt
        rw [hstep]
        cases j with
        | zero => omega
        | succ j' =>
          have hj' : j' ≤ rest.length := by simpa using hj
          have hlt' : (b + e.bytes) + sumBytes (rest.take j') < m := by
            simp [sumBytes_cons] at hlt
            omega
          have := hrec.2.2.2 j' hj' hlt'
          omega

/-- C1 — Batch selection for POST mode.  The claim that at least one
record is always selected is false on the code: when the head record
alone reaches the POST byte cap, `chooseHowManyToSend` breaks on the
first iteration and returns 0, so the selected batch is empty (and in
`executeQueue` the `batch.length > 0` guard then sends nothing).  Here a
one-record queue whose single record's size equals the cap yields a
selection of zero records. -/
theorem c1_batch_selection_counterexample :
    chooseHowManyToSend 5 [{ evt := "e", bytes := 5 }] = 0 ∧
      ¬ 1 ≤ chooseHowManyToSend 5 [{ evt := "e", bytes := 5 }] := by
  constructor
  · rfl
  · decide

/-- C1 (amended) — For a positive POST byte cap, `chooseHowManyToSend`
selects the longest prefix of the queue whose cumulative byte size stays
strictly below the cap: the count never exceeds the queue length, the
selected prefix's total size is below the cap (so every selected batch,
with no exception, is under budget — zero records are selected when the
head alone reaches the cap), adding the next record would reach the cap,
and any under-budget prefix is no longer than the selected one. -/
theorem c1_batch_selection_amended (m : Nat) (q : List PostEvent) (hm : 0 < m) :
    chooseHowManyToSend m q ≤ q.length ∧
      sumBytes (q.take (chooseHowManyToSend m q)) < m ∧
      (chooseHowManyToSend m q < q.length →
        m ≤ sumBytes (q.take (chooseHowManyToSend m q + 1))) ∧
      (∀ j, j ≤ q.length → sumBytes (q.take j) < m → j ≤ chooseHowManyToSend m q) := by
  have h := chooseGo_spec m q 0
  refine ⟨h.1, ?_, ?_, ?_⟩
  · have := h.2.1 hm; simpa [chooseHowManyToSend] using this
  · intro hlen
    have := h.2.2.1 hlen
    simpa [chooseHowManyToSend] using this
  · intro j hj hlt
    exact h.2.2.2 j hj (by simpa using hlt)

/-- C1 witness: on a concrete queue with cap 8, the batch `[3, 4]` is
selected — two records, total 7 < 8, and appending the third (5 bytes)
would reach the cap. -/
theorem c1_batch_selection_witness :
    (0 : Nat) < 8 ∧
      (chooseHowManyToSend 8 [{ evt := "a", bytes := 3 }, { evt := "b", bytes := 4 },
          { evt := "c", bytes := 5 }] ≤ 3 ∧
        sumBytes ([{ evt := "a", bytes := 3 }, { evt := "b", bytes := 4 },
            { evt := "c", bytes := 5 }].take (chooseHowManyToSend 8
              [{ evt := "a", bytes := 3 }, { evt := "b", bytes := 4 },
                { evt := "c", bytes := 5 }])) < 8 ∧
        (chooseHowManyToSend 8 [{ evt := "a", bytes := 3 }, { evt := "b", bytes := 4 },
            { evt := "c", bytes := 5 }] < 3 →
          8 ≤ sumBytes ([{ evt := "a", bytes := 3 }, { evt := "b", bytes := 4 },
              { evt := "c", bytes := 5 }].take (chooseHowManyToSend 8
                [{ evt := "a", bytes := 3 }, { evt := "b", bytes := 4 },
                  { evt := "c", bytes := 5 }] + 1))) ∧
        (∀ j, j ≤ 3 →
          sumBytes ([{ evt := "a", bytes := 3 }, { evt := "b", bytes := 4 },
              { evt := "c", bytes := 5 }].take j) < 8 →
            j ≤ chooseHowManyToSend 8 [{ evt := "a", bytes := 3 },
              { evt := "b", bytes := 4 }, { evt := "c", bytes := 5 }])) :=
  ⟨by decide,
    by
      have h := c1_batch_selection_amended 8
        [{ evt := "a", bytes := 3 }, { evt := "b", bytes := 4 }, { evt := "c", bytes := 5 }]
        (by decide)
      simpa using h⟩

/-- C2 — Retry classification.  `shouldRetryForStatusCode` is exactly:
not a 2xx status, and retries globally enabled, and (status on the
explicit retry list, or not on the don't-retry list).  This closed form
gives every conjunct of the claim: 2xx is never retried, a disabled
global flag forces false, the explicit retry list wins over the
don't-retry list, and otherwise membership in the don't-retry list is
decisive.  The three retry-matrix instances are also stated. -/
theorem c2_retry_classification :
    (∀ (f : Bool) (r d : List Nat) (s : Nat),
      shouldRetryForStatusCode f r d s =
        (!isSuccessfulRequest s && f && (r.contains s || !d.contains s))) ∧
      shouldRetryForStatusCode true [] [] 500 = true ∧
      shouldRetryForStatusCode true [] [404] 404 = false ∧
      shouldRetryForStatusCode true [429] [429] 429 = true := by
  refine ⟨?_, rfl, rfl, rfl⟩
  intro f r d s
  by_cases hs : isSuccessfulRequest s
  · simp [shouldRetryForStatusCode, hs]
  · cases f with
    | false => simp [shouldRetryForStatusCode, hs]
    | true =>
      by_cases hr : r.contains s
      · simp [shouldRetryForStatusCode, hs, hr]
      · simp [shouldRetryForStatusCode, hs, hr]

lemma shiftN_eq_drop {α : Type} : ∀ (n : Nat) (l : List α), shiftN n l = l.drop n := by
  intro n
  induction n with
  | zero => intro l; rfl
  | succ k ih =>
    intro l
    cases l with
    | nil => simp [shiftN, ih]
    | cons a t => simp [shiftN, ih, List.tail]

lemma chooseHowManyToSend_le_length (m : Nat) (q : List PostEvent) :
    chooseHowManyToSend m q ≤ q.length :=
  (chooseGo_spec m q 0).1

/-- The records sent by the success-path recursion, in order, are
exactly an initial segment of the queue. -/
lemma drainBatches_flatten (m : Nat) : ∀ (fuel : Nat) (q : List PostEvent),
    ∃ k, k ≤ q.length ∧ (drainBatches m fuel q).flatten = q.take k := by
  intro fuel
  induction fuel with
  | zero => intro q; exact ⟨0, Nat.zero_le _, by simp [drainBatches]⟩
  | succ f ih =>
    intro q
    by_cases hn : chooseHowManyToSend m q = 0
    · exact ⟨0, Nat.zero_le _, by simp [drainBatches, hn]⟩
    · obtain ⟨k, hk, hfl⟩ := ih (shiftN (chooseHowManyToSend m q) q)
      rw [shiftN_eq_drop] at hk hfl
      have hle := chooseHowManyToSend_le_length m q
      refine ⟨chooseHowManyToSend m q + k, ?_, ?_⟩
      · simp only [List.length_drop] at hk
        omega
      · simp only [drainBatches, if_neg hn, List.flatten_cons]
        rw [shiftN_eq_drop, hfl]
        exact (List.take_add q (chooseHowManyToSend m q) k).symm

/-- A later queue position is never assigned an earlier batch. -/
lemma batchOfPos_mono {α : Type} :
    ∀ (B : List (List α)) (p r : Nat), p ≤ r → batchOfPos B p ≤ batchOfPos B r := by
  intro B
  induction B with
  | nil => intro p r _; exact Nat.le_refl _
  | cons b bs ih =>
    intro p r h
    by_cases hp : p < b.length
    · simp only [batchOfPos]
      rw [if_pos hp]
      exact Nat.zero_le _
    · have hr : ¬ r < b.length := by omega
      simp only [batchOfPos, if_neg hp, if_neg hr]
      exact Nat.succ_le_succ (ih (p - b.length) (r - b.length) (by omega))

/-- The record at overall position `p` of the concatenated batches is a
member of the batch `batchOfPos` assigns to `p`. -/
lemma batchOfPos_mem {α : Type} :
    ∀ (B : List (List α)) (p : Nat) (hp : p < B.flatten.length),
      ∃ hk : batchOfPos B p < B.length,
        B.flatten.get ⟨p, hp⟩ ∈ B.get ⟨batchOfPos B p, hk⟩ := by
  intro B
  induction B with
  | nil => intro p hp; simp at hp
  | cons b bs ih =>
    intro p hp
    by_cases hlt : p < b.length
    · refine ⟨by simp [batchOfPos, hlt], ?_⟩
      have hget : (b :: bs).flatten.get ⟨p, hp⟩ = b.get ⟨p, hlt⟩ := by
        simp only [List.flatten_cons]
        simp [List.getElem_append_left hlt]
      rw [hget]
      have hbp : batchOfPos (b :: bs) p = 0 := by simp [batchOfPos, hlt]
      have : (b :: bs).get ⟨batchOfPos (b :: bs) p, by simp [hbp]⟩ = b := by
        simp [hbp]
      simp only [hbp]
      exact List.get_mem b p hlt
    · have hp2 : p - b.length < bs.flatten.length := by
        simp only [List.flatten_cons, List.length_append] at hp
        omega
      obtain ⟨hk, hmem⟩ := ih (p - b.length) hp2
      refine ⟨by simp [batchOfPos, hlt]; omega, ?_⟩
      have hget : (b :: bs).flatten.get ⟨p, hp⟩ = bs.flatten.get ⟨p - b.length, hp2⟩ := by
        simp only [List.flatten_cons]
        simp [List.getElem_append_right (show b.length ≤ p by omega)]
      rw [hget]
      have hbp : batchOfPos (b :: bs) p = batchOfPos bs (p - b.length) + 1 := by
        simp [batchOfPos, hlt]
      simp only [hbp, List.get_cons_succ]
      exact hmem

/-- C7 — FIFO ordering.  The queue effect of `removeEventsFromQueue` is
exactly dropping the front prefix (`shiftN n = drop n`); the records
attempted across the drain loop's successive batches form, in order, an
initial segment of the queue; a record enqueued earlier is assigned an
equal-or-earlier batch than any record enqueued later; and each attempted
record really sits in the batch so assigned.  Together: for records A
(position `i`) and B (position `j`) with `i ≤ j`, if both are sent then
A's batch index `batchOfPos … i` is at most B's. -/
theorem c7_fifo_ordering (m fuel : Nat) (q : List PostEvent) :
    (∀ (n : Nat) (l : List PostEvent), shiftN n l = l.drop n) ∧
    (∀ (cfg : Config) (n : Nat) (w : Bool) (st : MgrState),
      (removeEventsFromQueue cfg n w st).outQueue = st.outQueue.drop n) ∧
    (∃ k, k ≤ q.length ∧ (drainBatches m fuel q).flatten = q.take k) ∧
    (∀ i j, i ≤ j →
      batchOfPos (drainBatches m fuel q) i ≤ batchOfPos (drainBatches m fuel q) j) ∧
    (∀ p (hp : p < (drainBatches m fuel q).flatten.length),
      ∃ hq : p < q.length,
        (drainBatches m fuel q).flatten.get ⟨p, hp⟩ = q.get ⟨p, hq⟩ ∧
        ∃ hk : batchOfPos (drainBatches m fuel q) p < (drainBatches m fuel q).length,
          (drainBatches m fuel q).flatten.get ⟨p, hp⟩ ∈
            (drainBatches m fuel q).get ⟨batchOfPos (drainBatches m fuel q) p, hk⟩) := by
  obtain ⟨k, hk, hfl⟩ := drainBatches_flatten m fuel q
  refine ⟨shiftN_eq_drop, ?_, ⟨k, hk, hfl⟩, ?_, ?_⟩
  · intro cfg n w st
    simp [removeEventsFromQueue, shiftN_eq_drop]
  · intro i j hij
    exact batchOfPos_mono (drainBatches m fuel q) i j hij
  · intro p hp
    have hlen : (drainBatches m fuel q).flatten.length ≤ q.length := by
      rw [hfl]
      simp
    refine ⟨by omega, ?_, batchOfPos_mem (drainBatches m fuel q) p hp⟩
    have hp2 : p < (q.take k).length := by
      rw [← hfl]
      exact hp
    rw [List.get_of_eq hfl ⟨p, hp⟩]
    simp [List.getElem_take]

/-- C3 — counterexample.  The claim that every size-exceeding enqueue is
sent immediately and directly fails in GET mode without XHR support: the
oversized record is warned about and then silently discarded — nothing
is sent (`direct := none`), and nothing is queued. -/
theorem c3_oversized_bypass_counterexample :
    enqueueRequest { sampleConfig with usePost := false, useXhr := false, maxGetBytes := 1 }
        "" true sampleState { serialized := "x", querystring := "?e=pv" } "http://c" =
      { state := { sampleState with configCollectorUrl := some "http://c/i" }
        warned := true
        direct := none
        triggeredDrain := false } := rfl

/-- C3 (amended) — Oversized-event bypass.  In POST mode a body whose
byte size reaches the POST cap is warned about and posted directly to
the collector URL, leaving the in-memory queue and the persisted queue
untouched.  In GET mode with a positive GET cap, a record whose rendered
URL reaches the cap is warned about and — when XHR is available — posted
directly to the POST endpoint, else dropped; either way it never joins
the queue.  In GET mode with a zero cap no size check occurs: the record
is always enqueued, with no warning and no direct send. -/
theorem c3_oversized_bypass_amended (cfg : Config) (now : String) (writeOk : Bool)
    (st : MgrState) (request : Payload) (url : String) :
    (cfg.usePost = true →
      cfg.maxPostBytes ≤ (getBody request.serialized).bytes →
      enqueueRequest cfg now writeOk st request url =
        { state := { st with configCollectorUrl := some (url ++ cfg.path) }
          warned := true
          direct := some (getBody request.serialized, url ++ cfg.path)
          triggeredDrain := false }) ∧
    (cfg.usePost = false →
      0 < cfg.maxGetBytes →
      cfg.maxGetBytes ≤
        getUTF8Length (createGetUrl cfg now (url ++ cfg.path) request.querystring) →
      enqueueRequest cfg now writeOk st request url =
        { state := { st with configCollectorUrl := some (url ++ cfg.path) }
          warned := true
          direct :=
            if cfg.useXhr then some (getBody request.serialized, url ++ cfg.postPath)
            else none
          triggeredDrain := false }) ∧
    (cfg.usePost = false → cfg.maxGetBytes = 0 →
      (enqueueRequest cfg now writeOk st request url).state.outQueue =
          st.outQueue ++ [JSVal.jstr request.querystring] ∧
        (enqueueRequest cfg now writeOk st request url).warned = false ∧
        (enqueueRequest cfg now writeOk st request url).direct = none) := by
  refine ⟨?_, ?_, ?_⟩
  · intro hpost hbytes
    simp [enqueueRequest, hpost, hbytes]
  · intro hget hpos hbytes
    simp [enqueueRequest, hget, hpos, hbytes]
  · intro hget hzero
    simp [enqueueRequest, enqueuePush, hget, hzero]

/-- C3 witness: a POST body of 1 byte against a 1-byte cap is diverted
to a direct send with the queue untouched. -/
theorem c3_oversized_bypass_witness :
    enqueueRequest { sampleConfig with maxPostBytes := 1 } "" true sampleState
        { serialized := "x", querystring := "?e=pv" } "http://c" =
      { state := { sampleState with
          configCollectorUrl := some "http://c/com.snowplowanalytics.snowplow/tp2" }
        warned := true
        direct := some ({ evt := "x", bytes := 1 },
          "http://c/com.snowplowanalytics.snowplow/tp2")
        triggeredDrain := false } :=
  Eq.trans
    ((c3_oversized_bypass_amended { sampleConfig with maxPostBytes := 1 } "" true
        sampleState { serialized := "x", querystring := "?e=pv" } "http://c").1
      rfl (by decide))
    rfl

/-- C4 — counterexample.  On timeout the failure's `willRetry` is the
raw global retry flag, not the Retry Classifier's decision for synthetic
status 0: with retries enabled and 0 on the don't-retry list, the
timeout callback still reports `willRetry = true` while the classifier
returns false for status 0. -/
theorem c4_timeout_counterexample :
    (xhrTimeoutFire { sampleConfig with dontRetryStatusCodes := [0] } true 1 ["e"]
        sampleState).2.willRetry = true ∧
      shouldRetryForStatusCode
          ({ sampleConfig with dontRetryStatusCodes := [0] } : Config).retryFailedRequests
          ({ sampleConfig with dontRetryStatusCodes := [0] } : Config).retryStatusCodes
          ({ sampleConfig with dontRetryStatusCodes := [0] } : Config).dontRetryStatusCodes
          0 = false :=
  ⟨rfl, rfl⟩

/-- C4 (amended) — Timeout handling.  The timeout callback reports a
failure with status 0, the fixed message `"timeout"`, the attempted
batch, and `willRetry` equal to the global retry-enable flag (and halts
the drain).  That flag agrees with the Retry Classifier's decision for
status 0 whenever 0 is on the explicit retry list or not on the
don't-retry list; only in the remaining corner (retries enabled, 0 on
the don't-retry list and not on the retry list) do the two differ. -/
theorem c4_timeout_amended (cfg : Config) (writeOk : Bool) (n : Nat)
    (batch : List String) (st : MgrState) :
    (xhrTimeoutFire cfg writeOk n batch st).2.status = 0 ∧
    (xhrTimeoutFire cfg writeOk n batch st).2.message = "timeout" ∧
    (xhrTimeoutFire cfg writeOk n batch st).2.events = batch ∧
    (xhrTimeoutFire cfg writeOk n batch st).2.willRetry = cfg.retryFailedRequests ∧
    (xhrTimeoutFire cfg writeOk n batch st).1.executingQueue = false ∧
    ((cfg.retryStatusCodes.contains 0 = true ∨ cfg.dontRetryStatusCodes.contains 0 = false) →
      (xhrTimeoutFire cfg writeOk n batch st).2.willRetry =
        shouldRetryForStatusCode cfg.retryFailedRequests cfg.retryStatusCodes
          cfg.dontRetryStatusCodes 0) := by
  refine ⟨rfl, rfl, rfl, rfl, rfl, ?_⟩
  intro h
  have hsucc : isSuccessfulRequest 0 = false := rfl
  cases hf : cfg.retryFailedRequests with
  | false => simp [xhrTimeoutFire, shouldRetryForStatusCode, hsucc, hf]
  | true =>
    rcases h with h | h
    · simp [xhrTimeoutFire, shouldRetryForStatusCode, hsucc, hf, h]
      exact Or.inl (by simpa using h)
    · simp [xhrTimeoutFire, shouldRetryForStatusCode, hsucc, hf, h]
      exact Or.inr (by simpa using h)

/-- C4 witness: with both status-code lists empty, the timeout's
`willRetry` coincides with the classifier at status 0. -/
theorem c4_timeout_witness :
    (xhrTimeoutFire sampleConfig true 1 ["e"] sampleState).2.willRetry =
      shouldRetryForStatusCode sampleConfig.retryFailedRequests
        sampleConfig.retryStatusCodes sampleConfig.dontRetryStatusCodes 0 :=
  (c4_timeout_amended sampleConfig true 1 ["e"] sampleState).2.2.2.2.2 (Or.inr rfl)

/-- C5 — Drain configuration error.  A drain on a queue that is
non-empty after the self-healing guard, with no collector URL configured
(still `undefined`, hence not a string), throws
`"No collector configured"` instead of sending or dropping anything; a
drain on an empty queue returns without error and resets the executing
flag to false. -/
theorem c5_drain_config_error (cfg : Config) (now : String) (st : MgrState) :
    (selfHeal st.outQueue ≠ [] → st.configCollectorUrl = none →
      executeQueueStep cfg now st = Except.error "No collector configured") ∧
    (st.outQueue = [] →
      executeQueueStep cfg now st =
        Except.ok ({ st with outQueue := [], executingQueue := false }, QAction.idle)) := by
  constructor
  · intro hne hurl
    have hemp : (selfHeal st.outQueue).isEmpty = false := by
      cases h : selfHeal st.outQueue with
      | nil => exact absurd h hne
      | cons a t => rfl
    simp [executeQueueStep, hemp, hurl]
  · intro h
    simp [executeQueueStep, h, selfHeal]

/-- C5 witness: a one-record queue with no collector URL throws; an
empty queue returns to idle. -/
theorem c5_drain_config_error_witness :
    executeQueueStep sampleConfig "" { sampleState with outQueue := [JSVal.jstr "?e=pv"] } =
        Except.error "No collector configured" ∧
      executeQueueStep sampleConfig "" sampleState =
        Except.ok ({ sampleState with outQueue := [], executingQueue := false },
          QAction.idle) :=
  ⟨(c5_drain_config_error sampleConfig ""
        { sampleState with outQueue := [JSVal.jstr "?e=pv"] }).1
      (by simp [selfHeal, jsTypeof]) rfl,
    (c5_drain_config_error sampleConfig "" sampleState).2 rfl⟩

/-- C6 — counterexample.  The self-healing guard only discards heads
whose `typeof` is neither `"string"` nor `"object"`.  An object lacking
the `evt` field (not a valid post-record, not a string) survives the
guard, and the drain then proceeds to attempt a send with it: it is
coerced into a GET URL as `[object Object]`. -/
theorem c6_self_healing_counterexample :
    selfHeal [JSVal.jobjNoEvt] = [JSVal.jobjNoEvt] ∧
      isValidPostRecord JSVal.jobjNoEvt = false ∧
      isStringRecord JSVal.jobjNoEvt = false ∧
      executeQueueStep { sampleConfig with usePost := false } ""
          { sampleState with
            outQueue := [JSVal.jobjNoEvt]
            configCollectorUrl := some "http://c/i" } =
        Except.ok ({ sampleState with
            outQueue := [JSVal.jobjNoEvt]
            configCollectorUrl := some "http://c/i"
            executingQueue := true },
          QAction.sendGetXhr "http://c/i[object Object]" 1) :=
  ⟨rfl, rfl, rfl, rfl⟩

/-- C6 (amended) — Self-healing guard.  The guard discards exactly the
leading entries whose JavaScript `typeof` is neither `"string"` nor
`"object"`; consequently the first record processed (the head after
healing, if any) always has `typeof` string or object — but it need not
be a valid post-record or a string, since any object-typed value (a
record without `evt`, or `null`) passes the guard. -/
theorem c6_self_healing_amended (q : List JSVal) :
    (∀ v, (selfHeal q).head? = some v →
      jsTypeof v = JSType.string ∨ jsTypeof v = JSType.object) ∧
    ∃ junk, q = junk ++ selfHeal q ∧
      ∀ v ∈ junk, jsTypeof v ≠ JSType.string ∧ jsTypeof v ≠ JSType.object := by
  induction q with
  | nil =>
    refine ⟨?_, [], rfl, ?_⟩
    · intro v hv; simp [selfHeal] at hv
    · intro v hv; simp at hv
  | cons a rest ih =>
    by_cases h : jsTypeof a ≠ JSType.string ∧ jsTypeof a ≠ JSType.object
    · have hsh : selfHeal (a :: rest) = selfHeal rest := by
        simp [selfHeal, h]
      obtain ⟨h1, junk, hj, hbad⟩ := ih
      refine ⟨?_, a :: junk, ?_, ?_⟩
      · rw [hsh]; exact h1
      · rw [hsh, List.cons_append, ← hj]
      · intro v hv
        cases List.mem_cons.mp hv with
        | inl h1 => exact h1 ▸ h
        | inr h2 => exact hbad v h2
    · have hsh : selfHeal (a :: rest) = a :: rest := by
        simp [selfHeal, h]
      refine ⟨?_, [], by simp [hsh], ?_⟩
      · intro v hv
        rw [hsh] at hv
        have hav : a = v := by simpa using hv
        by_cases hs : jsTypeof a = JSType.string
        · exact hav ▸ Or.inl hs
        · refine hav ▸ Or.inr ?_
          by_contra ho
          exact h ⟨hs, ho⟩
      · intro v hv
        simp at hv

/-- C6 witness: after a numeric junk head is discarded, the surviving
head is string-typed. -/
theorem c6_self_healing_witness :
    jsTypeof (JSVal.jstr "?x") = JSType.string ∨
      jsTypeof (JSVal.jstr "?x") = JSType.object :=
  (c6_self_healing_amended [JSVal.jnum 1, JSVal.jstr "?x"]).1 (JSVal.jstr "?x") rfl

/-- C8 — Single-flight re-entrancy.  While the executing flag is set,
both the public `executeQueue` wrapper and the registered buffer flusher
return immediately: the state (queue, flag, everything) is unchanged and
no action is dispatched. -/
theorem c8_single_flight (cfg : Config) (now : String) (st : MgrState)
    (h : st.executingQueue = true) :
    publicExecuteQueue cfg now st = Except.ok (st, QAction.noop) ∧
      bufferFlusher cfg now st = Except.ok (st, QAction.noop) := by
  constructor <;> simp [publicExecuteQueue, bufferFlusher, h]

/-- C8 witness: a concrete executing state is left untouched by both
entry points. -/
theorem c8_single_flight_witness :
    publicExecuteQueue sampleConfig "" { sampleState with executingQueue := true } =
        Except.ok ({ sampleState with executingQueue := true }, QAction.noop) ∧
      bufferFlusher sampleConfig "" { sampleState with executingQueue := true } =
        Except.ok ({ sampleState with executingQueue := true }, QAction.noop) :=
  c8_single_flight sampleConfig "" { sampleState with executingQueue := true } rfl

/-- C9 — Corrupted-persistence recovery.  With persistence enabled, a
stored value that fails to parse, or parses to a non-array, initializes
the queue to `[]`; a stored value parsing to an array initializes the
queue to exactly that array.  `loadQueue` is total, so no failure is
surfaced to the caller. -/
theorem c9_corrupted_persistence (slot : String) (parse : String → Option JSVal) :
    (parse slot = none → loadQueue true (some slot) parse = []) ∧
    (∀ v, parse slot = some v → isArray v = false → loadQueue true (some slot) parse = []) ∧
    (∀ elems, parse slot = some (JSVal.jarr elems) →
      loadQueue true (some slot) parse = elems) := by
  refine ⟨?_, ?_, ?_⟩
  · intro h; simp [loadQueue, h]
  · intro v h hv
    cases v <;> simp_all [loadQueue, isArray]
  · intro elems h; simp [loadQueue, h]

/-- C9 witness: malformed persisted JSON (the parser throws) yields the
empty queue. -/
theorem c9_corrupted_persistence_witness :
    loadQueue true (some "not json") (fun _ => none) = [] :=
  (c9_corrupted_persistence "not json" (fun _ => none)).1 rfl

/-- C10 — Bypass sends never retry and never touch the queue.  The
completion handler of `sendPostRequestWithoutQueueing` is the identity
on the manager state (no queue mutation, no re-queue, no persistence
write), and any non-2xx outcome is reported with `willRetry = false`,
independent of the retry-enable flag and both status-code lists (which
the handler does not even consult); the POST bypass branch of
`enqueueRequest` likewise leaves the in-memory and persisted queues
unchanged. -/
theorem c10_bypass_never_retries (cfg : Config) (now : String) (writeOk : Bool)
    (st : MgrState) (request : Payload) (url : String) (batch : List String)
    (status : Nat) (statusText : String) :
    (sendPostRequestWithoutQueueingOnComplete batch status statusText st).1 = st ∧
    (isSuccessfulRequest status = false →
      (sendPostRequestWithoutQueueingOnComplete batch status statusText st).2 =
        CallbackEvent.failure
          { status := status, message := statusText, events := batch, willRetry := false }) ∧
    (cfg.usePost = true →
      cfg.maxPostBytes ≤ (getBody request.serialized).bytes →
      (enqueueRequest cfg now writeOk st request url).state.outQueue = st.outQueue ∧
        (enqueueRequest cfg now writeOk st request url).state.persisted = st.persisted) := by
  refine ⟨rfl, ?_, ?_⟩
  · intro h; simp [sendPostRequestWithoutQueueingOnComplete, h]
  · intro hpost hbytes
    simp [enqueueRequest, hpost, hbytes]

/-- C10 witness: a bypass send completing with status 500 reports
`willRetry = false`. -/
theorem c10_bypass_never_retries_witness :
    (sendPostRequestWithoutQueueingOnComplete ["e"] 500 "err" sampleState).2 =
      CallbackEvent.failure
        { status := 500, message := "err", events := ["e"], willRetry := false } :=
  (c10_bypass_never_retries sampleConfig "" true sampleState
      { serialized := "x", querystring := "?x" } "u" ["e"] 500 "err").2.1 rfl

/-- C7 witness: for a concrete queue and cap, position 0 is sent in an
equal-or-earlier batch than position 2. -/
theorem c7_fifo_ordering_witness :
    (0 : Nat) ≤ 2 ∧
      batchOfPos (drainBatches 8 5 [{ evt := "a", bytes := 3 }, { evt := "b", bytes := 4 },
          { evt := "c", bytes := 5 }]) 0 ≤
        batchOfPos (drainBatches 8 5 [{ evt := "a", bytes := 3 }, { evt := "b", bytes := 4 },
          { evt := "c", bytes := 5 }]) 2 :=
  ⟨by decide,
    (c7_fifo_ordering 8 5 [{ evt := "a", bytes := 3 }, { evt := "b", bytes := 4 },
        { evt := "c", bytes := 5 }]).2.2.2.1 0 2 (by decide)⟩

end OutQueue
